import Mathlib

/-!
Verification of the cluster-manager core, the filter-set registry and the
debug byte-to-string helper, as a shallow embedding in Lean.

The functions of `src/src/cluster/cluster_manager.rs`,
`src/src/filters/set.rs` and `src/src/utils/debug.rs` are translated
directly; the value types they consume (`Endpoint`, `Endpoints`,
`ClusterUpdate`, `Metrics`, `DynFilterFactory`), which live outside the
given sources, are modelled from the specification.
-/

set_option autoImplicit false

namespace Quilkin

/-- Modelled from the spec: `Endpoint` (the `crate::cluster::Endpoint` value
type, whose definition is not among the given sources) is one routable
backend address plus opaque per-endpoint metadata; addresses and metadata
are modelled as natural numbers. -/
structure Endpoint where
  address : Nat
  metadata : Option Nat
deriving DecidableEq, Repr

/-- Modelled from the spec: `Endpoint::from_address` constructs an endpoint
from an address alone, with no metadata. -/
def Endpoint.from_address (address : Nat) : Endpoint :=
  { address := address, metadata := none }

/-- Modelled from the spec: a locality-endpoints record holds an ordered
list of raw endpoints. -/
structure LocalityEndpoints where
  endpoints : List Endpoint
deriving DecidableEq, Repr

/-- Modelled from the spec: a cluster record holds a mapping from an
optional locality identifier to a locality-endpoints record; the mapping is
modelled as an association list in the mapping's iteration order, locality
identifiers as naturals. -/
structure Cluster where
  localities : List (Option Nat × LocalityEndpoints)
deriving DecidableEq, Repr

/-- Modelled from the spec: `ClusterUpdate` is a mapping from cluster-name
string to a cluster record, modelled as an association list in the
mapping's iteration order. -/
abbrev ClusterUpdate := List (String × Cluster)

/-- Modelled from the spec: `Endpoints` is a non-empty ordered sequence of
`Endpoint`; the type itself guarantees non-emptiness. -/
abbrev Endpoints := { l : List Endpoint // l ≠ [] }

/-- Modelled from the spec: the error returned by `Endpoints::new` on an
empty input list. -/
inductive EmptyListError where
  | emptyList
deriving DecidableEq, Repr

/-- Modelled from the spec: `Endpoints::new` fails on an empty input and
otherwise wraps the given non-empty list. -/
def Endpoints.new (l : List Endpoint) : Except EmptyListError Endpoints :=
  if h : l = [] then .error .emptyList else .ok ⟨l, h⟩

/-- Modelled from the spec: `UpstreamEndpoints` is a read-oriented view
derived from `Endpoints` by a one-way conversion carrying no independent
lifecycle. -/
structure UpstreamEndpoints where
  endpoints : Endpoints
deriving DecidableEq

/-- Modelled from the spec: the metrics registry collaborator. The only
behaviour this core depends on is whether it rejects gauge registration
(e.g. a duplicate registration in the same process). -/
structure Registry where
  rejects_gauge_registration : Bool
deriving DecidableEq, Repr

/-- Modelled from the spec: two gauges, "active clusters" and "active
endpoints"; gauge values are signed integers, assigned with `set`. -/
structure Metrics where
  active_clusters : Int
  active_endpoints : Int
deriving DecidableEq, Repr

/-- The error space of the module. `MetricsError` stands for the metrics
library's error, propagated under the `MetricsResult` alias and modelled
from the spec as carrying a message; `InitializeErrorMessage` embeds the
module's own `InitializeError::Message` variant
(src/src/cluster/cluster_manager.rs lines 44-48), which the given code
declares but never constructs. -/
inductive ModuleError where
  | MetricsError (msg : String)
  | InitializeErrorMessage (msg : String)
deriving DecidableEq, Repr

/-- Modelled from the spec: `Metrics::new` registers exactly two gauges
against the registry, each starting at its zero default; a rejected
registration is the metrics library's error. -/
def Metrics.new (metrics_registry : Registry) : Except ModuleError Metrics :=
  if metrics_registry.rejects_gauge_registration then
    .error (.MetricsError "gauge registration rejected")
  else
    .ok { active_clusters := 0, active_endpoints := 0 }

/-- `ClusterManager` (src/src/cluster/cluster_manager.rs lines 37-40): a
`Metrics` handle and the current optional endpoints snapshot. The shared
lock wrapper (`Arc<RwLock<..>>`) is left implicit: the state behind it is
what the embedding carries. -/
structure ClusterManager where
  metrics : Metrics
  endpoints : Option Endpoints
deriving DecidableEq

/-- `ClusterManager::new` (lines 51-54): register the metrics, store the
optional snapshot; the metrics error propagates. -/
def ClusterManager.new (metrics_registry : Registry) (endpoints : Option Endpoints) :
    Except ModuleError ClusterManager := do
  let metrics ← Metrics.new metrics_registry
  pure { metrics := metrics, endpoints := endpoints }

/-- `ClusterManager::update` (lines 56-58): replace the snapshot. -/
def ClusterManager.update (cm : ClusterManager) (endpoints : Option Endpoints) :
    ClusterManager :=
  { cm with endpoints := endpoints }

/-- `ClusterManager::get_all_endpoints` (lines 62-64): clone the optional
snapshot and convert it into the `UpstreamEndpoints` view. -/
def ClusterManager.get_all_endpoints (cm : ClusterManager) : Option UpstreamEndpoints :=
  cm.endpoints.map (fun ep => { endpoints := ep })

/-- `ClusterManager::create_endpoints_from_update` (lines 130-156): fold
over the cluster entries, appending for each cluster the flattened
per-locality endpoint lists (each raw endpoint rebuilt with
`Endpoint::from_address`), then pass the accumulated list to
`Endpoints::new`, turning its error (the empty list) into `none`. -/
def ClusterManager.create_endpoints_from_update (update : ClusterUpdate) :
    Option Endpoints :=
  let endpoints := update.foldl
    (fun endpoints nc =>
      let cluster_endpoints :=
        (nc.2.localities.map
          (fun le => le.2.endpoints.map (fun ep => Endpoint.from_address ep.address))).flatten
      endpoints ++ cluster_endpoints)
    []
  match Endpoints.new endpoints with
  | .ok endpoints => some endpoints
  | .error _ => none

/-- `ClusterManager::fixed` (lines 67-80): build the manager with the given
endpoints as the snapshot, then set the "active endpoints" gauge to the
snapshot's length (zero were the snapshot absent); "active clusters" is
never touched. -/
def ClusterManager.fixed (metrics_registry : Registry) (endpoints : Endpoints) :
    Except ModuleError ClusterManager := do
  let cm ← ClusterManager.new metrics_registry (some endpoints)
  pure { cm with metrics := { cm.metrics with
    active_endpoints := Int.ofNat ((cm.endpoints.map (fun ep => ep.val.length)).getD 0) } }

/-- `ClusterManager::update_cluster_update_metrics` (lines 121-128): set
the "active clusters" gauge to the number of cluster entries and the
"active endpoints" gauge to the flattened set's size, or zero when
flattening yields none. -/
def ClusterManager.update_cluster_update_metrics (metrics : Metrics)
    (update : ClusterUpdate) : Metrics :=
  { metrics with
    active_clusters := Int.ofNat update.length,
    active_endpoints :=
      ((ClusterManager.create_endpoints_from_update update).map
        (fun ep => Int.ofNat ep.val.length)).getD 0 }

/-- `ClusterManager::dynamic` (lines 90-119), its synchronous part: build
the manager with the flattening of the initial update as snapshot, then
refresh both gauges from that update. The metrics handle is shared between
the manager and the spawned task, so the gauge assignment is visible in
the returned state. The update-ingestion task spawned afterwards is
modelled by `ClusterManager.spawn_updater_step` below; the handle is
returned without processing any channel message. -/
def ClusterManager.dynamic (metrics_registry : Registry) (cluster_update : ClusterUpdate) :
    Except ModuleError ClusterManager := do
  let cluster_manager ← ClusterManager.new metrics_registry
    (ClusterManager.create_endpoints_from_update cluster_update)
  let metrics := ClusterManager.update_cluster_update_metrics
    cluster_manager.metrics cluster_update
  pure { cluster_manager with metrics := metrics }

/-- The events the update-ingestion loop races: a received update
(`Some(update)` from the channel), the channel closing (`None`, sender
dropped), and the shutdown signal firing. -/
inductive UpdaterEvent where
  | updateReceived (update : ClusterUpdate)
  | channelClosed
  | shutdownSignal
deriving DecidableEq, Repr

/-- The state of the spawned updater task: the shared manager state and
whether the task has returned. -/
structure UpdaterState where
  cluster_manager : ClusterManager
  terminated : Bool
deriving DecidableEq

/-- `ClusterManager::spawn_updater` (lines 160-191), one loop iteration as
a step on events: a received update refreshes the gauges, flattens the
update and replaces the snapshot, and the loop continues; a closed channel
or the shutdown signal makes the task return, after which no event changes
the state again. -/
def ClusterManager.spawn_updater_step (s : UpdaterState) (ev : UpdaterEvent) :
    UpdaterState :=
  if s.terminated then s
  else
    match ev with
    | .updateReceived update =>
      let metrics := ClusterManager.update_cluster_update_metrics
        s.cluster_manager.metrics update
      let flattened := ClusterManager.create_endpoints_from_update update
      { s with cluster_manager :=
          ClusterManager.update { s.cluster_manager with metrics := metrics } flattened }
    | .channelClosed => { s with terminated := true }
    | .shutdownSignal => { s with terminated := true }

/-- The updater task over a whole sequence of events. -/
def ClusterManager.spawn_updater_run (s : UpdaterState) (evs : List UpdaterEvent) :
    UpdaterState :=
  evs.foldl ClusterManager.spawn_updater_step s

/-- The flattening as the spec words it: iterate every cluster entry,
then every locality entry discarding the key, then every raw endpoint
address converted with `Endpoint::from_address`, concatenated into one
flat sequence in iteration order. -/
def specFlattenedEndpoints (update : ClusterUpdate) : List Endpoint :=
  (update.map (fun nc =>
    (nc.2.localities.map (fun le =>
      le.2.endpoints.map (fun ep => Endpoint.from_address ep.address))).flatten)).flatten

/-- A sample one-cluster, two-endpoint update, as in the spec's P4. -/
def sampleUpdate : ClusterUpdate :=
  [("cluster-1",
    { localities := [(none,
        { endpoints := [Endpoint.from_address 80, Endpoint.from_address 81] })] })]

/-- The accumulating fold of `create_endpoints_from_update` computes the
flat concatenation described by the spec. -/
theorem foldl_append_eq_specFlatten (l : ClusterUpdate) (acc : List Endpoint) :
    l.foldl
      (fun endpoints nc =>
        endpoints ++
          (nc.2.localities.map
            (fun le => le.2.endpoints.map
              (fun ep => Endpoint.from_address ep.address))).flatten)
      acc = acc ++ specFlattenedEndpoints l := by
  induction l generalizing acc with
  | nil => simp [specFlattenedEndpoints]
  | cons x xs ih =>
    simp only [List.foldl_cons, ih, specFlattenedEndpoints, List.map_cons,
      List.flatten_cons, List.append_assoc]

theorem create_endpoints_from_update_eq (update : ClusterUpdate) :
    ClusterManager.create_endpoints_from_update update =
      if h : specFlattenedEndpoints update = [] then none
      else some ⟨specFlattenedEndpoints update, h⟩ := by
  simp only [ClusterManager.create_endpoints_from_update,
    foldl_append_eq_specFlatten update [], List.nil_append, Endpoints.new]
  by_cases h : specFlattenedEndpoints update = [] <;> simp [h]

/-- C1: `create_endpoints_from_update` returns `Some` of exactly the
endpoints obtained by iterating every cluster entry, every locality entry
within it (discarding cluster name and locality key) and every raw
endpoint address converted to an `Endpoint`, concatenated into one flat
sequence in the mapping's iteration order; and it returns `None` exactly
when that flattened sequence is empty. -/
theorem claim_C1 (update : ClusterUpdate) :
    (ClusterManager.create_endpoints_from_update update).map Subtype.val =
      (if specFlattenedEndpoints update = [] then none
       else some (specFlattenedEndpoints update)) ∧
    (ClusterManager.create_endpoints_from_update update = none ↔
      specFlattenedEndpoints update = []) := by
  rw [create_endpoints_from_update_eq update]
  by_cases h : specFlattenedEndpoints update = [] <;> simp [h]

/-- C8: `create_endpoints_from_update` is deterministic — applying it twice
to the same `ClusterUpdate` yields equal results. In the embedding the
function is pure by its very type: it takes no manager or task state, so
the two applications coincide definitionally. -/
theorem claim_C8 (update : ClusterUpdate) :
    ClusterManager.create_endpoints_from_update update =
      ClusterManager.create_endpoints_from_update update ∧
    (ClusterManager.create_endpoints_from_update update).map Subtype.val =
      (ClusterManager.create_endpoints_from_update update).map Subtype.val :=
  ⟨rfl, rfl⟩

/-- C3: `update_cluster_update_metrics` assigns (sets, does not increment)
both gauges from the raw update alone — active clusters to the number of
cluster entries, active endpoints to the flattened set's size or zero —
independently of the previous gauge values. -/
theorem claim_C3 (m1 m2 : Metrics) (update : ClusterUpdate) :
    ClusterManager.update_cluster_update_metrics m1 update =
      ClusterManager.update_cluster_update_metrics m2 update ∧
    (ClusterManager.update_cluster_update_metrics m1 update).active_clusters =
      (update.length : Int) ∧
    (ClusterManager.update_cluster_update_metrics m1 update).active_endpoints =
      ((ClusterManager.create_endpoints_from_update update).map
        (fun ep => (ep.val.length : Int))).getD 0 := by
  cases m1; cases m2; exact ⟨rfl, rfl, rfl⟩

/-- Whether a construction result is a success. -/
def resultIsOk {α : Type} : Except ModuleError α → Bool
  | .ok _ => true
  | .error _ => false

/-- A sample non-empty endpoints value with two endpoints, as in the
spec's P2. -/
def sampleEndpoints : Endpoints :=
  ⟨[Endpoint.from_address 80, Endpoint.from_address 81], by simp⟩

/-- `fixed` characterized: the metrics error on a rejecting registry,
otherwise the manager with the given snapshot, its length in the "active
endpoints" gauge and the untouched zero "active clusters" gauge. -/
theorem fixed_eq (r : Registry) (e : Endpoints) :
    ClusterManager.fixed r e =
      if r.rejects_gauge_registration then
        .error (.MetricsError "gauge registration rejected")
      else
        .ok { metrics := { active_clusters := 0,
                           active_endpoints := Int.ofNat e.val.length },
              endpoints := some e } := by
  obtain ⟨b⟩ := r
  cases b <;> rfl

/-- `dynamic` characterized: the metrics error on a rejecting registry,
otherwise the manager seeded with the flattened initial update and both
gauges refreshed from it. -/
theorem dynamic_eq (r : Registry) (u : ClusterUpdate) :
    ClusterManager.dynamic r u =
      if r.rejects_gauge_registration then
        .error (.MetricsError "gauge registration rejected")
      else
        .ok { metrics := ClusterManager.update_cluster_update_metrics
                { active_clusters := 0, active_endpoints := 0 } u,
              endpoints := ClusterManager.create_endpoints_from_update u } := by
  obtain ⟨b⟩ := r
  cases b <;> rfl

/-- C2: a successful `dynamic` call returns a manager whose snapshot
already equals `create_endpoints_from_update` of the initial update and
whose gauges already read the initial update's cluster count and flattened
endpoint count. The embedding computes this state synchronously, before
`spawn_updater_step` consumes any channel event, mirroring that the handle
is produced without waiting for a first channel message. -/
theorem claim_C2 (r : Registry) (u : ClusterUpdate) (cm : ClusterManager)
    (h : ClusterManager.dynamic r u = .ok cm) :
    cm.endpoints = ClusterManager.create_endpoints_from_update u ∧
    cm.metrics.active_clusters = (u.length : Int) ∧
    cm.metrics.active_endpoints =
      ((ClusterManager.create_endpoints_from_update u).map
        (fun ep => (ep.val.length : Int))).getD 0 := by
  rw [dynamic_eq] at h
  by_cases hr : r.rejects_gauge_registration <;> simp [hr] at h
  subst h
  exact ⟨rfl, rfl, rfl⟩

/-- The manager state `dynamic` yields on the sample one-cluster,
two-endpoint update. -/
def sampleDynamicManager : ClusterManager :=
  { metrics := { active_clusters := 1, active_endpoints := 2 },
    endpoints := ClusterManager.create_endpoints_from_update sampleUpdate }

/-- C2 witness: the spec's P4 scenario — one cluster, two endpoints. -/
theorem claim_C2_witness :
    ClusterManager.dynamic { rejects_gauge_registration := false } sampleUpdate =
      .ok sampleDynamicManager ∧
    (sampleDynamicManager.endpoints =
        ClusterManager.create_endpoints_from_update sampleUpdate ∧
      sampleDynamicManager.metrics.active_clusters = (sampleUpdate.length : Int) ∧
      sampleDynamicManager.metrics.active_endpoints =
        ((ClusterManager.create_endpoints_from_update sampleUpdate).map
          (fun ep => (ep.val.length : Int))).getD 0) :=
  ⟨by rfl,
   claim_C2 { rejects_gauge_registration := false } sampleUpdate
     sampleDynamicManager (by rfl)⟩

/-- C5: a successful `fixed` call returns a manager whose snapshot is
`some` of the supplied endpoints, whose "active endpoints" gauge equals
the number of endpoints supplied, and whose "active clusters" gauge is
its zero default. -/
theorem claim_C5 (r : Registry) (endpoints : Endpoints) (cm : ClusterManager)
    (h : ClusterManager.fixed r endpoints = .ok cm) :
    cm.endpoints = some endpoints ∧
    cm.metrics.active_endpoints = (endpoints.val.length : Int) ∧
    cm.metrics.active_clusters = 0 := by
  rw [fixed_eq] at h
  by_cases hr : r.rejects_gauge_registration <;> simp [hr] at h
  subst h
  exact ⟨rfl, rfl, rfl⟩

/-- The manager state `fixed` yields on the two sample endpoints. -/
def sampleFixedManager : ClusterManager :=
  { metrics := { active_clusters := 0, active_endpoints := 2 },
    endpoints := some sampleEndpoints }

/-- C5 witness: the spec's P2 scenario — two endpoints give gauges
(endpoints = 2, clusters = 0). -/
theorem claim_C5_witness :
    ClusterManager.fixed { rejects_gauge_registration := false } sampleEndpoints =
      .ok sampleFixedManager ∧
    (sampleFixedManager.endpoints = some sampleEndpoints ∧
      sampleFixedManager.metrics.active_endpoints = (sampleEndpoints.val.length : Int) ∧
      sampleFixedManager.metrics.active_clusters = 0) :=
  ⟨by rfl,
   claim_C5 { rejects_gauge_registration := false } sampleEndpoints
     sampleFixedManager (by rfl)⟩

/-- C6 counterexample: with a rejecting registry, `fixed` fails with the
metrics library's error, and for no message does it return the module's
`InitializeError::Message`; the given code declares that error type but
never constructs it, so the failure is not an `InitializeError`. -/
theorem claim_C6_counterexample :
    ClusterManager.fixed { rejects_gauge_registration := true } sampleEndpoints =
      .error (.MetricsError "gauge registration rejected") ∧
    ∀ msg : String,
      ClusterManager.fixed { rejects_gauge_registration := true } sampleEndpoints ≠
        .error (.InitializeErrorMessage msg) := by
  refine ⟨rfl, ?_⟩
  intro msg h
  rw [fixed_eq] at h
  simp at h

/-- C6 (amended): construction via `fixed` or `dynamic` fails exactly when
the metrics registry rejects gauge registration — in particular an
endpoint set that flattens to empty does not fail — and the error returned
is the metrics library's error carrying a message, not the declared (and
never constructed) `InitializeError`. -/
theorem claim_C6 (r : Registry) (endpoints : Endpoints) (u : ClusterUpdate) :
    (resultIsOk (ClusterManager.fixed r endpoints) = false ↔
      r.rejects_gauge_registration = true) ∧
    (resultIsOk (ClusterManager.dynamic r u) = false ↔
      r.rejects_gauge_registration = true) ∧
    (r.rejects_gauge_registration = true →
      ClusterManager.fixed r endpoints =
        .error (.MetricsError "gauge registration rejected") ∧
      ClusterManager.dynamic r u =
        .error (.MetricsError "gauge registration rejected")) := by
  obtain ⟨b⟩ := r
  cases b <;> simp [fixed_eq, dynamic_eq, resultIsOk]

/-- C6 witness: the rejecting registry makes both constructors fail with
the metrics error. -/
theorem claim_C6_witness :
    ClusterManager.fixed { rejects_gauge_registration := true } sampleEndpoints =
      .error (.MetricsError "gauge registration rejected") ∧
    ClusterManager.dynamic { rejects_gauge_registration := true } sampleUpdate =
      .error (.MetricsError "gauge registration rejected") :=
  (claim_C6 { rejects_gauge_registration := true } sampleEndpoints sampleUpdate).2.2 rfl

/-- C7: `get_all_endpoints` returns `some` view exactly when a snapshot is
known and `none` exactly when the stored endpoints are `none`; after an
update flattening to zero endpoints is applied, it returns `none`. -/
theorem claim_C7 (cm : ClusterManager) (u : ClusterUpdate) :
    (ClusterManager.get_all_endpoints cm).isSome = cm.endpoints.isSome ∧
    (∀ ep, cm.endpoints = some ep →
      ClusterManager.get_all_endpoints cm = some { endpoints := ep }) ∧
    (cm.endpoints = none → ClusterManager.get_all_endpoints cm = none) ∧
    (ClusterManager.create_endpoints_from_update u = none →
      ClusterManager.get_all_endpoints
        (ClusterManager.update cm (ClusterManager.create_endpoints_from_update u)) =
          none) := by
  refine ⟨?_, ?_, ?_, ?_⟩
  · obtain ⟨m, eps⟩ := cm
    cases eps <;> simp [ClusterManager.get_all_endpoints]
  · intro ep h
    simp [ClusterManager.get_all_endpoints, h]
  · intro h
    simp [ClusterManager.get_all_endpoints, h]
  · intro h
    simp [ClusterManager.get_all_endpoints, ClusterManager.update, h]

/-- A manager with no known endpoints. -/
def sampleManagerNone : ClusterManager :=
  { metrics := { active_clusters := 0, active_endpoints := 0 },
    endpoints := none }

/-- The empty update, which flattens to no endpoints. -/
def emptyUpdate : ClusterUpdate := []

/-- C7 witness: absence reported as `none`, including after applying the
empty update; a known snapshot reported as `some` view. -/
theorem claim_C7_witness :
    ClusterManager.get_all_endpoints sampleManagerNone = none ∧
    ClusterManager.get_all_endpoints
      (ClusterManager.update sampleManagerNone
        (ClusterManager.create_endpoints_from_update emptyUpdate)) = none ∧
    ClusterManager.get_all_endpoints sampleFixedManager =
      some { endpoints := sampleEndpoints } :=
  ⟨(claim_C7 sampleManagerNone emptyUpdate).2.2.1 rfl,
   (claim_C7 sampleManagerNone emptyUpdate).2.2.2 rfl,
   (claim_C7 sampleFixedManager emptyUpdate).2.1 sampleEndpoints rfl⟩

/-- C4: the update-ingestion loop as a state machine — `Some(update)`
refreshes both gauges, flattens, replaces the snapshot and keeps looping;
`None` (sender dropped) terminates; the shutdown signal terminates; and a
terminated task never modifies the manager again, for any sequence of
subsequent events. -/
theorem claim_C4 (s : UpdaterState) (u : ClusterUpdate) (evs : List UpdaterEvent) :
    (s.terminated = false →
      ClusterManager.spawn_updater_step s (.updateReceived u) =
        { cluster_manager :=
            { metrics := ClusterManager.update_cluster_update_metrics
                s.cluster_manager.metrics u,
              endpoints := ClusterManager.create_endpoints_from_update u },
          terminated := false }) ∧
    (ClusterManager.spawn_updater_step s .channelClosed).terminated = true ∧
    (ClusterManager.spawn_updater_step s .shutdownSignal).terminated = true ∧
    (s.terminated = true → ClusterManager.spawn_updater_run s evs = s) := by
  obtain ⟨cm, t⟩ := s
  refine ⟨?_, ?_, ?_, ?_⟩
  · intro ht
    subst ht
    obtain ⟨m, e⟩ := cm
    rfl
  · cases t <;> rfl
  · cases t <;> rfl
  · intro ht
    subst ht
    induction evs with
    | nil => rfl
    | cons e es ih => exact ih

/-- A running updater state over the sample dynamic manager. -/
def sampleRunningState : UpdaterState :=
  { cluster_manager := sampleDynamicManager, terminated := false }

/-- A terminated updater state over the sample dynamic manager. -/
def sampleTerminatedState : UpdaterState :=
  { cluster_manager := sampleDynamicManager, terminated := true }

/-- C4 witness: one update step on a running task, termination flags, and
a terminated task left unchanged by further events. -/
theorem claim_C4_witness :
    ClusterManager.spawn_updater_step sampleRunningState (.updateReceived sampleUpdate) =
      { cluster_manager :=
          { metrics := ClusterManager.update_cluster_update_metrics
              sampleRunningState.cluster_manager.metrics sampleUpdate,
            endpoints := ClusterManager.create_endpoints_from_update sampleUpdate },
        terminated := false } ∧
    (ClusterManager.spawn_updater_step sampleTerminatedState .channelClosed).terminated =
      true ∧
    ClusterManager.spawn_updater_run sampleTerminatedState
      [.updateReceived sampleUpdate, .shutdownSignal] = sampleTerminatedState :=
  ⟨(claim_C4 sampleRunningState sampleUpdate []).1 rfl,
   (claim_C4 sampleTerminatedState sampleUpdate []).2.1,
   (claim_C4 sampleTerminatedState sampleUpdate
      [.updateReceived sampleUpdate, .shutdownSignal]).2.2.2 rfl⟩

/-! ## The filter-set registry (src/src/filters/set.rs) -/

/-- Modelled from the spec: the logger handle passed to the factory
constructors; nothing of it is observed here. -/
abbrev Logger := Unit

/-- Modelled from the spec: a filter factory capability. Its `name` keys
the registry (`FilterFactory::name`); `id` stands in for the opaque
construct-a-filter-from-config capability, letting distinct factories with
equal names be told apart. -/
structure DynFilterFactory where
  name : String
  id : Nat
deriving DecidableEq, Repr

/-- `FilterMap` (src/src/filters/set.rs line 27): a name-keyed map of
factories, modelled as an association list whose key list stays free of
duplicates under `filterMapInsert`. -/
abbrev FilterMap := List (String × DynFilterFactory)

/-- Lookup by name, first matching entry. -/
def filterMapFind : FilterMap → String → Option DynFilterFactory
  | [], _ => none
  | p :: rest, k => if p.1 = k then some p.2 else filterMapFind rest k

/-- Whether the map holds an entry for the key. -/
def filterMapHasKey : FilterMap → String → Bool
  | [], _ => false
  | p :: rest, k => if p.1 = k then true else filterMapHasKey rest k

/-- `HashMap::insert` semantics: replace the value of an existing key in
place, otherwise add the new entry. -/
def filterMapInsert (m : FilterMap) (k : String) (v : DynFilterFactory) : FilterMap :=
  if filterMapHasKey m k then
    m.map (fun p => if p.1 = k then (k, v) else p)
  else m ++ [(k, v)]

/-- The key list of a map. -/
def filterMapKeys (m : FilterMap) : List String := m.map (fun p => p.1)

/-- `FilterSet` (src/src/filters/set.rs line 31): a wrapper around a
`FilterMap`. -/
structure FilterSet where
  map : FilterMap
deriving DecidableEq, Repr

/-- `FilterSet::from_iter` (lines 85-95): start from the empty map and
insert every factory under its name, later factories replacing earlier
ones of the same name. -/
def FilterSet.from_iter (filters : List DynFilterFactory) : FilterSet :=
  { map := filters.foldl (fun m factory => filterMapInsert m factory.name factory) [] }

/-- `FilterSet::with` (lines 74-76, named `withFactories` here since `with`
is reserved): `from_iter` without any defaults. -/
def FilterSet.withFactories (filters : List DynFilterFactory) : FilterSet :=
  FilterSet.from_iter filters

set_option linter.unusedVariables false in
/-- Modelled from the spec: the seven default factories seeded by
`FilterSet::default_with` — Debug, LocalRateLimit, ConcatBytes,
LoadBalancer, CaptureBytes, TokenRouter, Compress — whose constructors
live in `crate::filters::extensions`, outside the given sources. -/
def default_factories (base : Logger) : List DynFilterFactory :=
  [{ name := "Debug", id := 0 },
   { name := "LocalRateLimit", id := 1 },
   { name := "ConcatBytes", id := 2 },
   { name := "LoadBalancer", id := 3 },
   { name := "CaptureBytes", id := 4 },
   { name := "TokenRouter", id := 5 },
   { name := "Compress", id := 6 }]

/-- `FilterSet::default_with` (lines 54-70): the seven default factories
chained with the supplied ones, in that order, fed to `with`. -/
def FilterSet.default_with (base : Logger) (filters : List DynFilterFactory) : FilterSet :=
  FilterSet.withFactories (default_factories base ++ filters)

/-- Registry lookup by factory name. -/
def FilterSet.get (s : FilterSet) (n : String) : Option DynFilterFactory :=
  filterMapFind s.map n

/-- The last element of the list carrying the given name, if any: the
value `HashMap::insert` leaves in place after inserting the list in
order. -/
def lastNamed : List DynFilterFactory → String → Option DynFilterFactory
  | [], _ => none
  | f :: rest, n =>
    match lastNamed rest n with
    | some g => some g
    | none => if f.name = n then some f else none

theorem filterMapFind_eq_none (m : FilterMap) (k : String)
    (h : filterMapHasKey m k = false) : filterMapFind m k = none := by
  induction m with
  | nil => rfl
  | cons p rest ih =>
    by_cases hp : p.1 = k
    · rw [filterMapHasKey, if_pos hp] at h
      exact absurd h (by simp)
    · rw [filterMapHasKey, if_neg hp] at h
      rw [filterMapFind, if_neg hp]
      exact ih h

theorem filterMapFind_append (m1 m2 : FilterMap) (k : String) :
    filterMapFind (m1 ++ m2) k =
      match filterMapFind m1 k with
      | some v => some v
      | none => filterMapFind m2 k := by
  induction m1 with
  | nil => rfl
  | cons p rest ih =>
    by_cases hp : p.1 = k <;> simp [filterMapFind, hp, ih]

theorem filterMapFind_map_replace (m : FilterMap) (k n : String) (v : DynFilterFactory) :
    filterMapFind (m.map (fun p => if p.1 = k then (k, v) else p)) n =
      if n = k then (if filterMapHasKey m k = true then some v else none)
      else filterMapFind m n := by
  induction m with
  | nil => by_cases h : n = k <;> simp [filterMapFind, filterMapHasKey, h]
  | cons p rest ih =>
    by_cases hp : p.1 = k
    · by_cases hn : n = k
      · subst hn
        simp [filterMapFind, filterMapHasKey, hp, ih]
      · have hkn : ¬ k = n := fun h => hn h.symm
        have hpn : ¬ p.1 = n := fun h => hn (h.symm.trans hp)
        simp [filterMapFind, filterMapHasKey, hp, hn, hkn, hpn, ih]
    · by_cases hn : n = k
      · subst hn
        simp [filterMapFind, filterMapHasKey, hp, ih]
      · simp [filterMapFind, filterMapHasKey, hp, hn, ih]

/-- Lookup after `HashMap`-style insert: the inserted key maps to the new
value, every other key is untouched. -/
theorem filterMapFind_insert (m : FilterMap) (k n : String) (v : DynFilterFactory) :
    filterMapFind (filterMapInsert m k v) n =
      if n = k then some v else filterMapFind m n := by
  unfold filterMapInsert
  by_cases hk : filterMapHasKey m k = true
  · rw [if_pos hk, filterMapFind_map_replace]
    by_cases hn : n = k <;> simp [hn, hk]
  · rw [if_neg hk, filterMapFind_append]
    by_cases hn : n = k
    · subst hn
      rw [filterMapFind_eq_none m n (by simpa using hk)]
      simp [filterMapFind]
    · have hkn : ¬ k = n := fun h => hn h.symm
      cases hfind : filterMapFind m n <;> simp [filterMapFind, hkn, hn, hfind]

theorem filterMapHasKey_iff_mem (m : FilterMap) (k : String) :
    filterMapHasKey m k = true ↔ k ∈ filterMapKeys m := by
  induction m with
  | nil => simp [filterMapHasKey, filterMapKeys]
  | cons p rest ih =>
    rw [filterMapKeys, List.map_cons, List.mem_cons]
    by_cases hp : p.1 = k
    · rw [filterMapHasKey, if_pos hp]
      simp [hp]
    · rw [filterMapHasKey, if_neg hp]
      constructor
      · intro h
        exact Or.inr (ih.mp h)
      · rintro (h | h)
        · exact absurd h.symm hp
        · exact ih.mpr h

theorem filterMapKeys_map_replace (m : FilterMap) (k : String) (v : DynFilterFactory) :
    filterMapKeys (m.map (fun p => if p.1 = k then (k, v) else p)) =
      filterMapKeys m := by
  induction m with
  | nil => rfl
  | cons p rest ih =>
    have hh : filterMapKeys
        ((p :: rest).map (fun q => if q.1 = k then (k, v) else q)) =
      (if p.1 = k then (k, v) else p).1 ::
        filterMapKeys (rest.map (fun q => if q.1 = k then (k, v) else q)) := rfl
    rw [hh, ih,
      show filterMapKeys (p :: rest) = p.1 :: filterMapKeys rest from rfl]
    by_cases hp : p.1 = k
    · rw [if_pos hp, hp]
    · rw [if_neg hp]

theorem filterMapKeys_insert_nodup (m : FilterMap) (k : String) (v : DynFilterFactory)
    (h : (filterMapKeys m).Nodup) : (filterMapKeys (filterMapInsert m k v)).Nodup := by
  unfold filterMapInsert
  by_cases hk : filterMapHasKey m k = true
  · rw [if_pos hk, filterMapKeys_map_replace]
    exact h
  · rw [if_neg hk]
    have hnotmem : k ∉ filterMapKeys m :=
      fun hm => hk ((filterMapHasKey_iff_mem m k).mpr hm)
    have hkeys : filterMapKeys (m ++ [(k, v)]) = filterMapKeys m ++ [k] := by
      simp [filterMapKeys]
    rw [hkeys, List.nodup_append]
    refine ⟨h, List.nodup_singleton k, ?_⟩
    intro a ha hb
    rw [List.mem_singleton] at hb
    exact hnotmem (hb ▸ ha)

/-- Lookup after inserting a whole list in order: the last list element of
the looked-up name wins, the prior map answers otherwise. -/
theorem filterMapFind_foldl_insert (l : List DynFilterFactory) (m : FilterMap)
    (n : String) :
    filterMapFind (l.foldl (fun acc f => filterMapInsert acc f.name f) m) n =
      match lastNamed l n with
      | some g => some g
      | none => filterMapFind m n := by
  induction l generalizing m with
  | nil => rfl
  | cons f fs ih =>
    simp only [List.foldl_cons, lastNamed, ih, filterMapFind_insert]
    cases hlast : lastNamed fs n with
    | some g => rfl
    | none =>
      by_cases hf : f.name = n
      · subst hf
        simp
      · have hnf : ¬ n = f.name := fun h => hf h.symm
        simp [hf, hnf]

theorem lastNamed_append (l1 l2 : List DynFilterFactory) (n : String) :
    lastNamed (l1 ++ l2) n =
      match lastNamed l2 n with
      | some g => some g
      | none => lastNamed l1 n := by
  induction l1 with
  | nil => cases h : lastNamed l2 n <;> simp [lastNamed, h]
  | cons f fs ih =>
    cases h : lastNamed l2 n with
    | some g =>
      cases h1 : lastNamed fs n with
      | some g1 => simp [lastNamed, List.cons_append, ih, h, h1]
      | none => simp [lastNamed, List.cons_append, ih, h, h1]
    | none =>
      cases h1 : lastNamed fs n with
      | some g1 => simp [lastNamed, List.cons_append, ih, h, h1]
      | none => simp [lastNamed, List.cons_append, ih, h, h1]

theorem lastNamed_eq_none (l : List DynFilterFactory) (n : String)
    (h : ∀ g, g ∈ l → g.name ≠ n) : lastNamed l n = none := by
  induction l with
  | nil => rfl
  | cons f fs ih =>
    have hf : f.name ≠ n := h f (List.mem_cons_self f fs)
    rw [lastNamed, ih (fun g hg => h g (List.mem_cons_of_mem f hg))]
    simp [hf]

theorem lastNamed_eq_some (l : List DynFilterFactory) (n : String)
    (f : DynFilterFactory) (hmem : f ∈ l) (hname : f.name = n)
    (huniq : ∀ g, g ∈ l → g.name = n → g = f) : lastNamed l n = some f := by
  induction l with
  | nil => simp at hmem
  | cons x xs ih =>
    by_cases hx : f ∈ xs
    · rw [lastNamed,
        ih hx (fun g hg hgn => huniq g (List.mem_cons_of_mem x hg) hgn)]
    · have hfx : f = x := by
        rcases List.mem_cons.mp hmem with h | h
        · exact h
        · exact absurd h hx
      subst hfx
      have hnone : lastNamed xs n = none := by
        refine lastNamed_eq_none xs n (fun g hg hgn => ?_)
        exact hx ((huniq g (List.mem_cons_of_mem f hg) hgn) ▸ hg)
      rw [lastNamed, hnone]
      simp [hname]

/-- C9: the filter set is a name-keyed mapping with at most one factory
per name; `default_with` seeds the seven defaults then inserts the
supplied factories, so a supplied factory overrides the default of the
same name while defaults with unmatched names remain present. -/
theorem claim_C9 (base : Logger) (filters : List DynFilterFactory) (n : String) :
    (filterMapKeys (FilterSet.default_with base filters).map).Nodup ∧
    (∀ f, f ∈ filters → f.name = n → (∀ g, g ∈ filters → g.name = n → g = f) →
      FilterSet.get (FilterSet.default_with base filters) n = some f) ∧
    ((∀ g, g ∈ filters → g.name ≠ n) → ∀ d, d ∈ default_factories base → d.name = n →
      FilterSet.get (FilterSet.default_with base filters) n = some d) := by
  refine ⟨?_, ?_, ?_⟩
  · have inv : ∀ (l : List DynFilterFactory) (m : FilterMap), (filterMapKeys m).Nodup →
        (filterMapKeys
          (l.foldl (fun acc f => filterMapInsert acc f.name f) m)).Nodup := by
      intro l
      induction l with
      | nil => exact fun m h => h
      | cons f fs ih =>
        exact fun m h => ih _ (filterMapKeys_insert_nodup m f.name f h)
    exact inv _ [] (by simp [filterMapKeys])
  · intro f hmem hname huniq
    unfold FilterSet.get FilterSet.default_with FilterSet.withFactories FilterSet.from_iter
    rw [filterMapFind_foldl_insert, lastNamed_append,
      lastNamed_eq_some filters n f hmem hname huniq]
  · intro hmiss d hd hdname
    unfold FilterSet.get FilterSet.default_with FilterSet.withFactories FilterSet.from_iter
    rw [filterMapFind_foldl_insert, lastNamed_append, lastNamed_eq_none filters n hmiss]
    have huniq : ∀ g, g ∈ default_factories base → g.name = n → g = d := by
      subst hdname
      intro g hg hgn
      simp [default_factories] at hd hg
      rcases hd with hd | hd | hd | hd | hd | hd | hd <;> subst hd <;>
        rcases hg with hg | hg | hg | hg | hg | hg | hg <;> subst hg <;>
          first
            | rfl
            | exact absurd hgn (by decide)
    rw [lastNamed_eq_some (default_factories base) n d hd hdname huniq]

/-- C9 witness: a supplied Debug factory overrides the default Debug
factory, the untouched Compress default remains, and the key list stays
duplicate-free. -/
theorem claim_C9_witness :
    (filterMapKeys
      (FilterSet.default_with () [{ name := "Debug", id := 10 }]).map).Nodup ∧
    FilterSet.get (FilterSet.default_with () [{ name := "Debug", id := 10 }]) "Debug" =
      some { name := "Debug", id := 10 } ∧
    FilterSet.get (FilterSet.default_with () [{ name := "Debug", id := 10 }]) "Compress" =
      some { name := "Compress", id := 6 } :=
  ⟨(claim_C9 () [{ name := "Debug", id := 10 }] "Debug").1,
   (claim_C9 () [{ name := "Debug", id := 10 }] "Debug").2.1
     { name := "Debug", id := 10 } (by simp) (by decide)
     (by intro g hg hgn; simpa using hg),
   (claim_C9 () [{ name := "Debug", id := 10 }] "Compress").2.2
     (by intro g hg; simp at hg; subst hg; decide)
     { name := "Compress", id := 6 } (by simp [default_factories]) (by decide)⟩

/-! ## The debug byte-to-string helper (src/src/utils/debug.rs) -/

/-- Modelled from Rust's `std::str::from_utf8` validation: consume one
UTF-8 encoded scalar value from the front of the byte list, returning the
scalar and the remaining bytes, or `none` on any malformed prefix. The
byte-range conditions are those of the UTF-8 validation table: ASCII;
two-byte leads `C2..DF`; three-byte leads `E0` (second byte `A0..BF`),
`E1..EC` and `EE..EF` (second byte `80..BF`), `ED` (second byte `80..9F`,
excluding surrogates); four-byte leads `F0` (second byte `90..BF`),
`F1..F3` (second byte `80..BF`), `F4` (second byte `80..8F`, capping at
`U+10FFFF`); all later continuation bytes `80..BF`. -/
def utf8DecodeStep : List Nat → Option (Nat × List Nat)
  | [] => none
  | b0 :: rest =>
    if b0 < 0x80 then some (b0, rest)
    else
      match rest with
      | [] => none
      | b1 :: rest1 =>
        if 0xC2 ≤ b0 ∧ b0 ≤ 0xDF then
          if 0x80 ≤ b1 ∧ b1 ≤ 0xBF then
            some ((b0 - 0xC0) * 0x40 + (b1 - 0x80), rest1)
          else none
        else
          match rest1 with
          | [] => none
          | b2 :: rest2 =>
            if 0xE0 ≤ b0 ∧ b0 ≤ 0xEF then
              if ((b0 = 0xE0 ∧ 0xA0 ≤ b1 ∧ b1 ≤ 0xBF) ∨
                  (0xE1 ≤ b0 ∧ b0 ≤ 0xEC ∧ 0x80 ≤ b1 ∧ b1 ≤ 0xBF) ∨
                  (b0 = 0xED ∧ 0x80 ≤ b1 ∧ b1 ≤ 0x9F) ∨
                  (0xEE ≤ b0 ∧ b0 ≤ 0xEF ∧ 0x80 ≤ b1 ∧ b1 ≤ 0xBF)) ∧
                  0x80 ≤ b2 ∧ b2 ≤ 0xBF then
                some ((b0 - 0xE0) * 0x1000 + (b1 - 0x80) * 0x40 + (b2 - 0x80),
                  rest2)
              else none
            else
              match rest2 with
              | [] => none
              | b3 :: rest3 =>
                if ((b0 = 0xF0 ∧ 0x90 ≤ b1 ∧ b1 ≤ 0xBF) ∨
                    (0xF1 ≤ b0 ∧ b0 ≤ 0xF3 ∧ 0x80 ≤ b1 ∧ b1 ≤ 0xBF) ∨
                    (b0 = 0xF4 ∧ 0x80 ≤ b1 ∧ b1 ≤ 0x8F)) ∧
                    (0x80 ≤ b2 ∧ b2 ≤ 0xBF) ∧ 0x80 ≤ b3 ∧ b3 ≤ 0xBF then
                  some ((b0 - 0xF0) * 0x40000 + (b1 - 0x80) * 0x1000 +
                    (b2 - 0x80) * 0x40 + (b3 - 0x80), rest3)
                else none

/-- Decode a whole byte list into scalar values, stepping with
`utf8DecodeStep`. The fuel only serves structural recursion: every step
consumes at least one byte, so a fuel equal to the list length (as
`utf8Decode` passes) never runs out. -/
def utf8DecodeFuel : Nat → List Nat → Option (List Nat)
  | _, [] => some []
  | 0, _ :: _ => none
  | fuel + 1, b0 :: rest =>
    match utf8DecodeStep (b0 :: rest) with
    | none => none
    | some (cp, remaining) =>
      (utf8DecodeFuel fuel remaining).map (fun cps => cp :: cps)

/-- Modelled from Rust's `std::str::from_utf8`: the scalar values of the
byte list when it is valid UTF-8, `none` otherwise. -/
def utf8Decode (bytes : List Nat) : Option (List Nat) :=
  utf8DecodeFuel bytes.length bytes

/-- The standard UTF-8 encoding of one scalar value, used to state that
decoding is faithful. -/
def utf8EncodeScalar (c : Nat) : List Nat :=
  if c < 0x80 then [c]
  else if c < 0x800 then [0xC0 + c / 0x40, 0x80 + c % 0x40]
  else if c < 0x10000 then
    [0xE0 + c / 0x1000, 0x80 + (c / 0x40) % 0x40, 0x80 + c % 0x40]
  else
    [0xF0 + c / 0x40000, 0x80 + (c / 0x1000) % 0x40,
      0x80 + (c / 0x40) % 0x40, 0x80 + c % 0x40]

/-- The UTF-8 encoding of a scalar-value list. -/
def utf8Encode (cps : List Nat) : List Nat :=
  (cps.map utf8EncodeScalar).flatten

/-- `bytes_to_string` (src/src/utils/debug.rs lines 22-26): decode the
bytes as UTF-8 when possible, otherwise fall back to the human-readable
length marker built by the format string. -/
def bytes_to_string (bytes : List Nat) : String :=
  match utf8Decode bytes with
  | some cps => String.mk (cps.map Char.ofNat)
  | none => "<raw bytes :: len: " ++ toString bytes.length ++ ">"

/-- One decoding step inverts the encoder: the scalar it produces encodes
back to exactly the bytes it consumed. -/
theorem utf8DecodeStep_encode (bytes : List Nat) (cp : Nat) (remaining : List Nat)
    (h : utf8DecodeStep bytes = some (cp, remaining)) :
    utf8EncodeScalar cp ++ remaining = bytes := by
  cases bytes with
  | nil => simp [utf8DecodeStep] at h
  | cons b0 rest =>
    simp only [utf8DecodeStep] at h
    by_cases h0 : b0 < 0x80
    · rw [if_pos h0] at h
      simp only [Option.some.injEq, Prod.mk.injEq] at h
      obtain ⟨hcp, hrem⟩ := h
      subst hcp
      subst hrem
      rw [utf8EncodeScalar, if_pos h0]
      rfl
    · rw [if_neg h0] at h
      cases rest with
      | nil => simp at h
      | cons b1 rest1 =>
        simp only [] at h
        by_cases h2 : 0xC2 ≤ b0 ∧ b0 ≤ 0xDF
        · rw [if_pos h2] at h
          by_cases hc1 : 0x80 ≤ b1 ∧ b1 ≤ 0xBF
          · rw [if_pos hc1] at h
            simp only [Option.some.injEq, Prod.mk.injEq] at h
            obtain ⟨hcp, hrem⟩ := h
            subst hcp
            subst hrem
            obtain ⟨h2a, h2b⟩ := h2
            obtain ⟨hc1a, hc1b⟩ := hc1
            rw [utf8EncodeScalar, if_neg (by omega), if_pos (by omega)]
            simp only [List.cons_append, List.nil_append, List.cons.injEq]
            refine ⟨by omega, by omega, trivial⟩
          · rw [if_neg hc1] at h
            simp at h
        · rw [if_neg h2] at h
          cases rest1 with
          | nil => simp at h
          | cons b2 rest2 =>
            simp only [] at h
            by_cases h3 : 0xE0 ≤ b0 ∧ b0 ≤ 0xEF
            · rw [if_pos h3] at h
              by_cases hc2 : ((b0 = 0xE0 ∧ 0xA0 ≤ b1 ∧ b1 ≤ 0xBF) ∨
                  (0xE1 ≤ b0 ∧ b0 ≤ 0xEC ∧ 0x80 ≤ b1 ∧ b1 ≤ 0xBF) ∨
                  (b0 = 0xED ∧ 0x80 ≤ b1 ∧ b1 ≤ 0x9F) ∨
                  (0xEE ≤ b0 ∧ b0 ≤ 0xEF ∧ 0x80 ≤ b1 ∧ b1 ≤ 0xBF)) ∧
                  0x80 ≤ b2 ∧ b2 ≤ 0xBF
              · rw [if_pos hc2] at h
                simp only [Option.some.injEq, Prod.mk.injEq] at h
                obtain ⟨hcp, hrem⟩ := h
                subst hcp
                subst hrem
                obtain ⟨harm, hb2a, hb2b⟩ := hc2
                rcases harm with ⟨he, hb1a, hb1b⟩ | ⟨hea, heb, hb1a, hb1b⟩ |
                    ⟨he, hb1a, hb1b⟩ | ⟨hea, heb, hb1a, hb1b⟩ <;>
                  (rw [utf8EncodeScalar, if_neg (by omega), if_neg (by omega),
                      if_pos (by omega)]
                   simp only [List.cons_append, List.nil_append, List.cons.injEq]
                   refine ⟨by omega, by omega, by omega, trivial⟩)
              · rw [if_neg hc2] at h
                simp at h
            · rw [if_neg h3] at h
              cases rest2 with
              | nil => simp at h
              | cons b3 rest3 =>
                simp only [] at h
                by_cases hc3 : ((b0 = 0xF0 ∧ 0x90 ≤ b1 ∧ b1 ≤ 0xBF) ∨
                    (0xF1 ≤ b0 ∧ b0 ≤ 0xF3 ∧ 0x80 ≤ b1 ∧ b1 ≤ 0xBF) ∨
                    (b0 = 0xF4 ∧ 0x80 ≤ b1 ∧ b1 ≤ 0x8F)) ∧
                    (0x80 ≤ b2 ∧ b2 ≤ 0xBF) ∧ 0x80 ≤ b3 ∧ b3 ≤ 0xBF
                · rw [if_pos hc3] at h
                  simp only [Option.some.injEq, Prod.mk.injEq] at h
                  obtain ⟨hcp, hrem⟩ := h
                  subst hcp
                  subst hrem
                  obtain ⟨harm, ⟨hb2a, hb2b⟩, hb3a, hb3b⟩ := hc3
                  rcases harm with ⟨he, hb1a, hb1b⟩ | ⟨hea, heb, hb1a, hb1b⟩ |
                      ⟨he, hb1a, hb1b⟩ <;>
                    (rw [utf8EncodeScalar, if_neg (by omega), if_neg (by omega),
                        if_neg (by omega)]
                     simp only [List.cons_append, List.nil_append, List.cons.injEq]
                     refine ⟨by omega, by omega, by omega, by omega, trivial⟩)
                · rw [if_neg hc3] at h
                  simp at h

/-- Decoding inverts the encoder: a successful decode yields scalars whose
encoding is exactly the input bytes. -/
theorem utf8DecodeFuel_encode (fuel : Nat) :
    ∀ bytes cps : List Nat, utf8DecodeFuel fuel bytes = some cps →
      utf8Encode cps = bytes := by
  induction fuel with
  | zero =>
    intro bytes cps h
    cases bytes with
    | nil =>
      simp only [utf8DecodeFuel, Option.some.injEq] at h
      subst h
      rfl
    | cons b rest => simp [utf8DecodeFuel] at h
  | succ fuel ih =>
    intro bytes cps h
    cases bytes with
    | nil =>
      simp only [utf8DecodeFuel, Option.some.injEq] at h
      subst h
      rfl
    | cons b0 rest =>
      rw [utf8DecodeFuel] at h
      cases hstep : utf8DecodeStep (b0 :: rest) with
      | none => rw [hstep] at h; simp at h
      | some pr =>
        obtain ⟨cp, remaining⟩ := pr
        rw [hstep] at h
        have h2 : Option.map (fun cps => cp :: cps)
            (utf8DecodeFuel fuel remaining) = some cps := h
        cases hdec : utf8DecodeFuel fuel remaining with
        | none => rw [hdec] at h2; simp at h2
        | some cps1 =>
          rw [hdec] at h2
          simp only [Option.map_some', Option.some.injEq] at h2
          subst h2
          have henc := utf8DecodeStep_encode (b0 :: rest) cp remaining hstep
          calc utf8Encode (cp :: cps1)
              = utf8EncodeScalar cp ++ utf8Encode cps1 := rfl
            _ = utf8EncodeScalar cp ++ remaining := by
                rw [ih remaining cps1 hdec]
            _ = b0 :: rest := henc

/-- C10: `bytes_to_string` is total; on valid UTF-8 input it returns
exactly that input decoded as a string (the decoded scalars re-encode to
the very same bytes), and on invalid input it returns the marker string
with the byte length. -/
theorem claim_C10 (bytes : List Nat) :
    (∀ cps, utf8Decode bytes = some cps →
      bytes_to_string bytes = String.mk (cps.map Char.ofNat) ∧
      utf8Encode cps = bytes) ∧
    (utf8Decode bytes = none →
      bytes_to_string bytes =
        "<raw bytes :: len: " ++ toString bytes.length ++ ">") := by
  constructor
  · intro cps h
    refine ⟨?_, utf8DecodeFuel_encode bytes.length bytes cps h⟩
    unfold bytes_to_string
    rw [h]
  · intro h
    unfold bytes_to_string
    rw [h]

/-- C10 witness: the ASCII bytes of "hi" decode to that string and
round-trip, while the lone byte 255 is invalid and yields the length
marker. -/
theorem claim_C10_witness :
    utf8Decode [104, 105] = some [104, 105] ∧
    (bytes_to_string [104, 105] = String.mk ([104, 105].map Char.ofNat) ∧
      utf8Encode [104, 105] = [104, 105]) ∧
    utf8Decode [255] = none ∧
    bytes_to_string [255] =
      "<raw bytes :: len: " ++ toString ([255] : List Nat).length ++ ">" :=
  ⟨rfl, (claim_C10 [104, 105]).1 [104, 105] rfl, rfl, (claim_C10 [255]).2 rfl⟩

end Quilkin

